import Mathlib

/-!
Formal model of the visual workflow editor script: the config transcoder
(action list to step entities and back), the step collection and its
renumbering, the element locator, the selector synthesizer, the picker
overlay bookkeeping and the drag clamping.

Shallow embedding conventions:
* JavaScript numbers are modelled by the rationals.
* JavaScript values carried in workflow records are modelled by the
  inductive type JValue (null, number, string).  The source applies
  parseFloat to Wait values and collapses NaN to zero via a disjunction
  with zero; parseFloat of a numeric string is not modelled, so theorems
  about Wait delays restrict Wait values to numbers.
* The live page (the browser DOM) is modelled by an abstract Page: a
  viewport size and a query function returning, for a selector string,
  either the list of matching elements in document order, or none when
  the selector string is a syntax error (querySelectorAll throws).
* An undefined field of a JavaScript config object and the empty string
  are observationally interchangeable in every code path the theorems
  touch (both are falsy, both render nothing), so string-valued fields
  use the empty string for absent.
-/

namespace WorkflowEditor

/-- A JavaScript value as carried in a workflow record: null, a number,
or a string. -/
inductive JValue where
  | null
  | num (q : ℚ)
  | str (s : String)
  deriving DecidableEq

/-- One record of the persisted action list.  Mirrors the objects the
script reads from config.workflow and writes in doSave: an action tag
string, a target key string, the optional flag and a free-form value. -/
structure ActionRecord where
  action : String
  target : String
  optional : Bool
  value : JValue
  deriving DecidableEq

/-- Model of parseFloat(v) with the source's trailing disjunction with
zero, which collapses NaN (null, non-numeric strings) to zero.  Numeric
strings are not modelled. -/
def jsToNum : JValue → ℚ
  | .num q => q
  | _ => 0

/-- A live page element, with the attributes the script inspects:
id, tag name, the raw className string, the data-testid attribute
(none when absent), whether it is document.body, and its bounding box. -/
structure Elem where
  id : String := ""
  tagName : String := ""
  className : String := ""
  testId : Option String := none
  isBody : Bool := false
  left : ℚ := 0
  top : ℚ := 0
  width : ℚ := 0
  height : ℚ := 0
  deriving DecidableEq

/-- The page the script runs on: the viewport size and the result of
document.querySelectorAll for each selector string — the matches in
document order, or none when the selector is syntactically invalid
(querySelectorAll throws). -/
structure Page where
  innerWidth : ℚ
  innerHeight : ℚ
  query : String → Option (List Elem)

/-- findElement: empty selector gives null; a throwing selector is
caught and gives null; otherwise the last match in document order, or
null when there is no match. -/
def findElement (page : Page) (selector : String) : Option Elem :=
  if selector = "" then none
  else
    match page.query selector with
    | none => none
    | some elements => elements.getLast?

/-- getElementCenter: the center of the element's bounding box, or the
viewport center when the element is null. -/
def getElementCenter (page : Page) : Option Elem → ℚ × ℚ
  | none => (page.innerWidth / 2, page.innerHeight / 2)
  | some e => (e.left + e.width / 2, e.top + e.height / 2)

/-- Model of the JavaScript String.prototype method that tests whether a
string begins with a given fragment, as a character-level comparison of
the underlying character lists. -/
def jsStartsWith (s p : String) : Bool := p.data.isPrefixOf s.data

/-- CSS.escape is a browser primitive; the escaping itself is irrelevant
to every property proved here (only the query result of the composite
selector string matters), so it is modelled as the identity embedding of
the id into the selector string. -/
def cssEscape (s : String) : String := s

/-- Number of matches of a selector on the page.  Inside
generateSelector the source calls document.querySelectorAll directly
(without try/catch); an invalid selector is modelled as zero matches,
which makes the candidate fail the uniqueness test exactly as a thrown
branch would never return it. -/
def queryCount (page : Page) (sel : String) : ℕ :=
  match page.query sel with
  | none => 0
  | some elements => elements.length

/-- generateSelector: body marker for the root, then an id selector
(non-generated id, unique on the page), then a data-testid selector,
then tag plus at most the first two non-generated class tokens, then
the bare lowercase tag name. -/
def generateSelector (page : Page) (e : Elem) : String :=
  if e.isBody then "body"
  else
    let idSel := "#" ++ cssEscape e.id
    if e.id ≠ "" ∧ ¬ jsStartsWith e.id "wfe-" ∧ queryCount page idSel = 1 then
      idSel
    else
      let tid := e.testId.getD ""
      let tidSel := "[data-testid=\"" ++ tid ++ "\"]"
      if tid ≠ "" ∧ queryCount page tidSel = 1 then
        tidSel
      else
        let classes :=
          ((e.className.splitOn " ").filter
            (fun c => c != "" && !(jsStartsWith c "wfe-"))).take 2
        let clsSel := e.tagName.toLower ++ "." ++ String.intercalate "." classes
        if e.className ≠ "" ∧ classes ≠ [] ∧ queryCount page clsSel = 1 then
          clsSel
        else
          e.tagName.toLower

/-- The config bag of a step entity (Ball), after construction:
delay_ms, random_radius, text, selector and the correlated symbolic
targetKey (empty string for absent). -/
structure BallConfig where
  delay_ms : ℚ
  random_radius : ℚ
  text : String
  selector : String
  targetKey : String
  deriving DecidableEq

/-- A step entity.  The DOM node, the drag flags and the random DOM id
are presentation state and are not part of the data model; the fields
here are the ones the transcoder, the sequencer and the warning logic
read and write. -/
structure Ball where
  type : String
  seq : ℕ
  x : ℚ
  y : ℚ
  config : BallConfig
  isWarning : Bool
  warningMessage : String
  deriving DecidableEq

/-- The partial config object passed to the Ball constructor (opts.config
in the source), spread over the constructor defaults: a field that is
none keeps the default. -/
structure ConfigArg where
  delay_ms : Option ℚ := none
  random_radius : Option ℚ := none
  text : Option String := none
  selector : Option String := none
  targetKey : Option String := none
  deriving DecidableEq

/-- The Ball constructor's config initialization: defaults (delay 0 for
sequence 1 else 1000, radius 10, empty text and selector) overridden by
the spread of the supplied partial config. -/
def mkBallConfig (seq : ℕ) (c : ConfigArg) : BallConfig where
  delay_ms := c.delay_ms.getD (if seq = 1 then 0 else 1000)
  random_radius := c.random_radius.getD 10
  text := c.text.getD ""
  selector := c.selector.getD ""
  targetKey := c.targetKey.getD ""

/-- The ball built by addBall for a given sequence number: default
staggered position, or the found element's center minus half the 28px
layout size when the config carries a selector that resolves; the
warning state is set when the config carries a selector that does not
resolve. -/
def newBall (ty : String) (cfg : ConfigArg) (page : Page) (seq : ℕ) : Ball :=
  let selStr := cfg.selector.getD ""
  let found := if selStr = "" then none else findElement page selStr
  let notFound : Bool := selStr != "" && found.isNone
  let pos :=
    match found with
    | some t =>
        let c := getElementCenter page (some t)
        (c.1 - 14, c.2 - 14)
    | none => (100 + ((seq : ℚ) - 1) * 40, page.innerHeight / 2)
  { type := ty
    seq := seq
    x := pos.1
    y := pos.2
    config := mkBallConfig seq cfg
    isWarning := notFound
    warningMessage := if notFound then "元素不存在: " ++ selStr else "" }

/-- addBall: the next sequence number is the current count plus one and
the new ball is appended to the step list.  (The deferred auto-picker
for a Read ball without selector is an asynchronous UI effect outside
the data model.) -/
def addBall (steps : List Ball) (ty : String) (cfg : ConfigArg) (page : Page) :
    List Ball :=
  steps ++ [newBall ty cfg page (steps.length + 1)]

/-- Ball.move: the stored position is the requested position clamped to
the interval from 0 to the viewport extent minus 28 in each axis. -/
def Ball.move (page : Page) (b : Ball) (x y : ℚ) : Ball :=
  { b with
    x := max 0 (min (page.innerWidth - 28) x)
    y := max 0 (min (page.innerHeight - 28) y) }

/-- The marker's fixed on-screen size: the stylesheet gives .wfe-ball a
width and height of 32 pixels. -/
def markerSize : ℚ := 32

/-- updateSeq: renumbering a ball to position n, forcing delay_ms to 0
when it becomes the first step. -/
def updateSeq (b : Ball) (n : ℕ) : Ball :=
  { b with
    seq := n
    config :=
      { b.config with delay_ms := if n = 1 then 0 else b.config.delay_ms } }

/-- The renumbering pass of removeBall: every remaining ball receives
updateSeq with its one-based position. -/
def renumber : ℕ → List Ball → List Ball
  | _, [] => []
  | n, b :: bs => updateSeq b n :: renumber (n + 1) bs

/-- removeBall (by index: the source looks the ball up with indexOf and
does nothing when it is absent): the ball is deleted and the remainder
renumbered from 1. -/
def removeBall (steps : List Ball) (i : ℕ) : List Ball :=
  if i < steps.length then renumber 1 (steps.eraseIdx i) else steps

/-- A site profile as consumed by loadFromConfig: the selector map from
symbolic keys to selector strings, and the workflow action list.  (The
early return on a null or field-less config object is the degenerate
case outside this model.) -/
structure Config where
  selectors : String → Option String
  workflow : List ActionRecord

/-- The decoding loop of loadFromConfig: a WAIT record adds its value
times 1000 to the pending delay and is consumed; a CLICK, FILL_INPUT or
STREAM_WAIT record becomes a ball (via addBall) carrying the pending
delay, the mapped selector and the target key, and resets the pending
delay; any other action is skipped with the pending delay untouched. -/
def decodeGo (sels : String → Option String) (page : Page) :
    List ActionRecord → ℚ → List Ball → List Ball
  | [], _, acc => acc
  | r :: rest, pending, acc =>
    if r.action = "WAIT" then
      decodeGo sels page rest (pending + jsToNum r.value * 1000) acc
    else if r.action = "CLICK" then
      decodeGo sels page rest 0
        (addBall acc "CLICK"
          { delay_ms := some pending
            random_radius := some 10
            selector := some ((sels r.target).getD "")
            targetKey := some r.target } page)
    else if r.action = "FILL_INPUT" then
      decodeGo sels page rest 0
        (addBall acc "INPUT"
          { delay_ms := some pending
            text := some ""
            selector := some ((sels r.target).getD "")
            targetKey := some r.target } page)
    else if r.action = "STREAM_WAIT" then
      decodeGo sels page rest 0
        (addBall acc "READ"
          { delay_ms := some pending
            selector := some ((sels r.target).getD "")
            targetKey := some r.target } page)
    else
      decodeGo sels page rest pending acc

/-- loadFromConfig: clear the collection, then run the decoding loop
over the workflow with pending delay 0. -/
def loadFromConfig (cfg : Config) (page : Page) : List Ball :=
  decodeGo cfg.selectors page cfg.workflow 0 []

/-- The line the batched warning alert prints for one warning ball: the
target key (or the unknown placeholder) and the selector string. -/
def noticeEntry (b : Ball) : String × String :=
  (if b.config.targetKey ≠ "" then b.config.targetKey else "未知",
   b.config.selector)

/-- The batched notice computed after the decode loop: none when no ball
carries a warning, otherwise one list with an entry per warning ball
(the source shows a single alert joining these lines). -/
def decodeNotice (steps : List Ball) : Option (List (String × String)) :=
  let warningBalls := steps.filter (·.isWarning)
  if warningBalls.isEmpty then none else some (warningBalls.map noticeEntry)

/-- The notice the user gets after loadFromConfig. -/
def loadNotice (cfg : Config) (page : Page) : Option (List (String × String)) :=
  decodeNotice (loadFromConfig cfg page)

/-- The WAIT record doSave emits before a ball whose delay is positive:
value is the delay divided by 1000 (seconds). -/
def ballWait (b : Ball) : List ActionRecord :=
  if 0 < b.config.delay_ms then
    [{ action := "WAIT", target := "", optional := false
       value := .num (b.config.delay_ms / 1000) }]
  else []

/-- The action record doSave emits for a ball at array index idx: the
correlated target key when non-empty, else the kind's fallback target
(custom_click_ plus the index for CLICK, the constants input_box and
result_container for INPUT and READ); value is the text (or null when
empty) for INPUT and null otherwise.  A ball of any other type emits
nothing. -/
def ballRecord (b : Ball) (idx : ℕ) : List ActionRecord :=
  if b.type = "CLICK" then
    [{ action := "CLICK"
       target := if b.config.targetKey ≠ "" then b.config.targetKey
                 else "custom_click_" ++ toString idx
       optional := false
       value := .null }]
  else if b.type = "INPUT" then
    [{ action := "FILL_INPUT"
       target := if b.config.targetKey ≠ "" then b.config.targetKey
                 else "input_box"
       optional := false
       value := if b.config.text ≠ "" then .str b.config.text else .null }]
  else if b.type = "READ" then
    [{ action := "STREAM_WAIT"
       target := if b.config.targetKey ≠ "" then b.config.targetKey
                 else "result_container"
       optional := false
       value := .null }]
  else []

/-- The workflow-building loop of doSave over the balls with their array
indices. -/
def bwGo : ℕ → List Ball → List ActionRecord
  | _, [] => []
  | idx, b :: bs => ballWait b ++ ballRecord b idx ++ bwGo (idx + 1) bs

/-- The workflow array doSave builds from the step collection (the
subsequent HTTP PUT and the clipboard fallback are transport, outside
the data model). -/
def doSaveWorkflow (steps : List Ball) : List ActionRecord :=
  bwGo 0 steps

/-- The picker-session resources attached to the document: how many
capture overlays and tip banners are in the DOM, whether the module
variables still reference an attached overlay and tip, and the
isPickingElement flag.  startPicker overwrites the module variables with
fresh elements; an overlay whose handle was overwritten stays in the
document with no remaining reference. -/
structure PickerState where
  overlays : ℕ
  tips : ℕ
  hasCurrentOverlay : Bool
  hasCurrentTip : Bool
  isPicking : Bool
  deriving DecidableEq

/-- No picker session has ever been started. -/
def pickerInit : PickerState :=
  { overlays := 0, tips := 0
    hasCurrentOverlay := false, hasCurrentTip := false, isPicking := false }

/-- startPicker: create and append a fresh overlay and tip and point the
module variables at them.  Nothing is removed: a previously attached
overlay stays in the document. -/
def startPicker (s : PickerState) : PickerState :=
  { overlays := s.overlays + 1
    tips := s.tips + 1
    hasCurrentOverlay := true
    hasCurrentTip := true
    isPicking := true }

/-- endPicker: remove the overlay and tip the module variables point at
(when they point at attached ones) and clear the picking state; leaked
overlays are untouched. -/
def endPicker (s : PickerState) : PickerState :=
  { overlays := s.overlays - (if s.hasCurrentOverlay then 1 else 0)
    tips := s.tips - (if s.hasCurrentTip then 1 else 0)
    hasCurrentOverlay := false
    hasCurrentTip := false
    isPicking := false }

/-- The observable content of an action list for the round-trip
property: each non-Wait record together with its action, target, value
and the total delay in milliseconds folded from the Wait records before
it.  Trailing Wait records bind to no action and are invisible here, and
a zero-valued Wait contributes nothing, matching the claim's phrasing of
observational equivalence (actions, order, targets, values, and the
per-action total preceding delay in milliseconds). -/
def obsGo : ℚ → List ActionRecord → List (String × String × JValue × ℚ)
  | _, [] => []
  | pending, r :: rest =>
    if r.action = "WAIT" then obsGo (pending + jsToNum r.value * 1000) rest
    else (r.action, r.target, r.value, pending) :: obsGo 0 rest

/-- Observable content of an action list, starting with no pending
delay. -/
def obs (l : List ActionRecord) : List (String × String × JValue × ℚ) :=
  obsGo 0 l

/-- Replace the value of a FillInput observation by null, leaving
everything else unchanged. -/
def fillNull : String × String × JValue × ℚ → String × String × JValue × ℚ
  | (a, t, v, d) => if a = "FILL_INPUT" then (a, t, .null, d) else (a, t, v, d)

/-- Well-formedness of one record of a round-trip input list: one of the
four transcodable actions; a Wait carries a non-negative numeric value
(seconds); a Click or StreamWait carries a null value and a non-empty
target; a FillInput carries a non-empty target. -/
def wfRecord (r : ActionRecord) : Bool :=
  if r.action = "WAIT" then
    match r.value with
    | .num q => decide (0 ≤ q)
    | _ => false
  else if r.action = "CLICK" ∨ r.action = "STREAM_WAIT" then
    r.target != "" && r.value == .null
  else if r.action = "FILL_INPUT" then
    r.target != ""
  else false

/-- The sequence invariant of the step collection: the sequence numbers
read in list order are exactly 1..N. -/
def SeqInv (steps : List Ball) : Prop :=
  steps.map (·.seq) = List.range' 1 steps.length

/-- The balls the decoding loop appends after an accumulator of n balls:
decodeGo restated without the accumulator, used to reason about the loop
by induction. -/
def decodeTail (sels : String → Option String) (page : Page) :
    List ActionRecord → ℚ → ℕ → List Ball
  | [], _, _ => []
  | r :: rest, pending, n =>
    if r.action = "WAIT" then
      decodeTail sels page rest (pending + jsToNum r.value * 1000) n
    else if r.action = "CLICK" then
      newBall "CLICK"
        { delay_ms := some pending
          random_radius := some 10
          selector := some ((sels r.target).getD "")
          targetKey := some r.target } page (n + 1)
        :: decodeTail sels page rest 0 (n + 1)
    else if r.action = "FILL_INPUT" then
      newBall "INPUT"
        { delay_ms := some pending
          text := some ""
          selector := some ((sels r.target).getD "")
          targetKey := some r.target } page (n + 1)
        :: decodeTail sels page rest 0 (n + 1)
    else if r.action = "STREAM_WAIT" then
      newBall "READ"
        { delay_ms := some pending
          selector := some ((sels r.target).getD "")
          targetKey := some r.target } page (n + 1)
        :: decodeTail sels page rest 0 (n + 1)
    else decodeTail sels page rest pending n

/-- The pending delay left over after the decoding loop consumes a list:
Wait records add to it, transcodable actions reset it, skipped actions
leave it. -/
def pendOut : List ActionRecord → ℚ → ℚ
  | [], p => p
  | r :: rest, p =>
    if r.action = "WAIT" then pendOut rest (p + jsToNum r.value * 1000)
    else if r.action = "CLICK" then pendOut rest 0
    else if r.action = "FILL_INPUT" then pendOut rest 0
    else if r.action = "STREAM_WAIT" then pendOut rest 0
    else pendOut rest p

/-- The action tag doSave writes for a ball type. -/
def ballAction (ty : String) : String :=
  if ty = "CLICK" then "CLICK"
  else if ty = "INPUT" then "FILL_INPUT"
  else "STREAM_WAIT"

/-- The value doSave writes for a ball: the text (or null when empty)
for an INPUT ball, null otherwise. -/
def ballValue (b : Ball) : JValue :=
  if b.type = "INPUT" then
    (if b.config.text ≠ "" then .str b.config.text else .null)
  else .null

/-- The fallback target key doSave writes for a ball of the given type at
the given array index, used when no symbolic key is known. -/
def fallbackTarget (ty : String) (idx : ℕ) : String :=
  if ty = "CLICK" then "custom_click_" ++ toString idx
  else if ty = "INPUT" then "input_box"
  else "result_container"

/-- The target keys of the non-Wait records doSave emits, ball by ball:
the correlated symbolic key when non-empty, else the kind's fallback. -/
def specTargets : ℕ → List Ball → List String
  | _, [] => []
  | idx, b :: bs =>
    (if b.config.targetKey ≠ "" then b.config.targetKey
     else fallbackTarget b.type idx) :: specTargets (idx + 1) bs

/-! Concrete pages, elements, configs and step collections used as test
inputs by the counterexamples and witnesses below. -/

/-- A plain 800 by 600 page on which every selector matches nothing. -/
def page0 : Page := ⟨800, 600, fun _ => some []⟩

/-- A small 100 by 100 page for the clamping counterexample. -/
def page3 : Page := ⟨100, 100, fun _ => some []⟩

/-- A concrete click ball at the origin. -/
def ball3 : Ball :=
  { type := "CLICK", seq := 1, x := 0, y := 0
    config := { delay_ms := 0, random_radius := 10, text := ""
                selector := "", targetKey := "" }
    isWarning := false, warningMessage := "" }

/-- First of two elements matching the same selector. -/
def elemOne : Elem := { id := "one" }

/-- Second of two elements matching the same selector. -/
def elemTwo : Elem := { id := "two" }

/-- A page on which the selector dup matches two elements in document
order and the selector bad is a syntax error. -/
def page5 : Page :=
  ⟨800, 600, fun s =>
    if s = "dup" then some [elemOne, elemTwo]
    else if s = "bad" then none
    else some []⟩

/-- A button with a unique non-generated id. -/
def elem6 : Elem := { id := "send", tagName := "BUTTON" }

/-- A page on which the id selector of elem6 matches exactly elem6. -/
def page6 : Page :=
  ⟨800, 600, fun s => if s = "#send" then some [elem6] else some []⟩

/-- The root element carrying a unique non-generated id. -/
def elemBody : Elem := { id := "main", tagName := "BODY", isBody := true }

/-- A page on which the root's id selector matches exactly the root. -/
def pageBody : Page :=
  ⟨800, 600, fun s => if s = "#main" then some [elemBody] else some []⟩

/-- A workflow holding one FillInput record with a text value and an
empty target: the round-trip counterexample input. -/
def cfg1 : Config := ⟨fun _ => none, [⟨"FILL_INPUT", "", false, .str "hello"⟩]⟩

/-- A well-formed two-record workflow: a two-second wait folded into a
click. -/
def cfgW1 : Config :=
  ⟨fun _ => none,
   [⟨"WAIT", "", false, .num 2⟩, ⟨"CLICK", "a", false, .null⟩]⟩

/-- A workflow starting with a five-second wait before a click: decoding
it gives the first entity a nonzero delay. -/
def cfg2 : Config :=
  ⟨fun _ => none, [⟨"WAIT", "", false, .num 5⟩, ⟨"CLICK", "a", false, .null⟩]⟩

/-- The single ball decoding cfg2 produces. -/
def ball2 : Ball :=
  { type := "CLICK", seq := 1, x := 100, y := 300
    config := { delay_ms := 5000, random_radius := 10, text := ""
                selector := "", targetKey := "a" }
    isWarning := false, warningMessage := "" }

/-- Two input balls added by hand, neither carrying a symbolic key. -/
def steps7 : List Ball := addBall (addBall [] "INPUT" {} page0) "INPUT" {} page0

/-- A click ball correlated to the symbolic key k. -/
def ball9 : Ball :=
  { type := "CLICK", seq := 1, x := 0, y := 0
    config := { delay_ms := 0, random_radius := 10, text := ""
                selector := "", targetKey := "k" }
    isWarning := false, warningMessage := "" }

/-- A workflow holding one click record whose optional flag is set. -/
def cfg9 : Config := ⟨fun _ => none, [⟨"CLICK", "a", true, .null⟩]⟩

/-- A profile mapping the key k to a selector that matches nothing on
page0, with a workflow clicking that key. -/
def cfg8 : Config :=
  ⟨fun k => if k = "k" then some "#gone" else none,
   [⟨"CLICK", "k", false, .null⟩]⟩

/-- A workflow ending in a trailing five-second wait after a click. -/
def cfg10 : Config :=
  ⟨fun _ => none,
   [⟨"CLICK", "a", false, .null⟩, ⟨"WAIT", "", false, .num 5⟩]⟩

/-! Shared lemmas about the embedded operations. -/

/-- Dividing a rational by 1000 and multiplying back is the identity. -/
theorem qdiv_mul_1000 (d : ℚ) : d / 1000 * 1000 = d :=
  div_mul_cancel₀ d (by norm_num)

/-- An id selector string is never empty. -/
theorem hash_append_ne_empty (x : String) : ("#" ++ x) ≠ "" := by
  intro h
  have h2 := congrArg String.length h
  simp only [String.length_append] at h2
  have h3 : "#".length = 1 := rfl
  have h4 : "".length = 0 := rfl
  omega

/-- Disjunction of options with a some on the left. -/
theorem some_or {α : Type} (a : α) (o : Option α) : (some a).or o = some a := rfl

/-- The type stored in a freshly constructed ball. -/
theorem newBall_type (ty : String) (cfg : ConfigArg) (page : Page) (n : ℕ) :
    (newBall ty cfg page n).type = ty := rfl

/-- The config stored in a freshly constructed ball. -/
theorem newBall_config (ty : String) (cfg : ConfigArg) (page : Page) (n : ℕ) :
    (newBall ty cfg page n).config = mkBallConfig n cfg := rfl

/-- The sequence number stored in a freshly constructed ball. -/
theorem newBall_seq (ty : String) (cfg : ConfigArg) (page : Page) (n : ℕ) :
    (newBall ty cfg page n).seq = n := by
  simp [newBall]

/-- The decoding loop only appends: it equals the accumulator followed
by the balls decodeTail describes. -/
theorem decodeGo_eq_tail (sels : String → Option String) (page : Page) :
    ∀ (L : List ActionRecord) (pending : ℚ) (acc : List Ball),
      decodeGo sels page L pending acc =
        acc ++ decodeTail sels page L pending acc.length := by
  intro L
  induction L with
  | nil => intro pending acc; simp [decodeGo, decodeTail]
  | cons r rest ih =>
    intro pending acc
    simp only [decodeGo, decodeTail]
    split
    · exact ih _ _
    · split
      · rw [ih]; simp [addBall]
      · split
        · rw [ih]; simp [addBall]
        · split
          · rw [ih]; simp [addBall]
          · exact ih _ _

/-- The decoding loop never drops a ball already in the accumulator. -/
theorem decodeGo_mem_mono (sels : String → Option String) (page : Page) :
    ∀ (L : List ActionRecord) (pending : ℚ) (acc : List Ball) (b : Ball),
      b ∈ acc → b ∈ decodeGo sels page L pending acc := by
  intro L
  induction L with
  | nil => intro pending acc b hb; simpa [decodeGo] using hb
  | cons r rest ih =>
    intro pending acc b hb
    simp only [decodeGo]
    split
    · exact ih _ _ _ hb
    · split
      · exact ih _ _ _ (by simp [addBall, hb])
      · split
        · exact ih _ _ _ (by simp [addBall, hb])
        · split
          · exact ih _ _ _ (by simp [addBall, hb])
          · exact ih _ _ _ hb

/-- A ball constructed over a config whose selector matches nothing on
the page is created in the warning state, recording the selector and
the missing-element message. -/
theorem newBall_warning (ty : String) (cfg : ConfigArg) (page : Page) (n : ℕ)
    (sel : String) (hsel : cfg.selector = some sel) (hne : sel ≠ "")
    (hq : page.query sel = some []) :
    (newBall ty cfg page n).isWarning = true ∧
    (newBall ty cfg page n).config.selector = sel ∧
    (newBall ty cfg page n).config.targetKey = cfg.targetKey.getD "" ∧
    (newBall ty cfg page n).warningMessage = "元素不存在: " ++ sel := by
  have hfe : findElement page sel = none := by simp [findElement, hne, hq]
  simp [newBall, mkBallConfig, hsel, hne, hfe]

/-- Decoding a list containing a transcodable record whose mapped
selector matches nothing produces a warning ball for it. -/
theorem decode_warning_exists (sels : String → Option String) (page : Page) :
    ∀ (L : List ActionRecord) (pending : ℚ) (acc : List Ball)
      (r : ActionRecord) (sel : String),
      r ∈ L →
      (r.action = "CLICK" ∨ r.action = "FILL_INPUT" ∨ r.action = "STREAM_WAIT") →
      sels r.target = some sel → sel ≠ "" → page.query sel = some [] →
      ∃ b ∈ decodeGo sels page L pending acc,
        b.isWarning = true ∧ b.config.selector = sel ∧
        b.config.targetKey = r.target ∧
        b.warningMessage = "元素不存在: " ++ sel := by
  intro L
  induction L with
  | nil => intro _ _ r _ hr; simp at hr
  | cons q rest ih =>
    intro pending acc r sel hr hact hsel hne hq
    rcases List.mem_cons.mp hr with heq | hmem
    · subst heq
      rcases hact with hact | hact | hact
      all_goals
        simp only [decodeGo, hact]
        norm_num
      case _ =>
        refine ⟨newBall "CLICK"
          { delay_ms := some pending, random_radius := some 10
            selector := some ((sels r.target).getD "")
            targetKey := some r.target } page (acc.length + 1), ?_, ?_⟩
        · apply decodeGo_mem_mono
          simp [addBall]
        · have h := newBall_warning "CLICK"
            { delay_ms := some pending, random_radius := some 10
              selector := some ((sels r.target).getD "")
              targetKey := some r.target } page (acc.length + 1) sel
            (by simp [hsel]) hne hq
          simpa using h
      case _ =>
        refine ⟨newBall "INPUT"
          { delay_ms := some pending, text := some ""
            selector := some ((sels r.target).getD "")
            targetKey := some r.target } page (acc.length + 1), ?_, ?_⟩
        · apply decodeGo_mem_mono
          simp [addBall]
        · have h := newBall_warning "INPUT"
            { delay_ms := some pending, text := some ""
              selector := some ((sels r.target).getD "")
              targetKey := some r.target } page (acc.length + 1) sel
            (by simp [hsel]) hne hq
          simpa using h
      case _ =>
        refine ⟨newBall "READ"
          { delay_ms := some pending
            selector := some ((sels r.target).getD "")
            targetKey := some r.target } page (acc.length + 1), ?_, ?_⟩
        · apply decodeGo_mem_mono
          simp [addBall]
        · have h := newBall_warning "READ"
            { delay_ms := some pending
              selector := some ((sels r.target).getD "")
              targetKey := some r.target } page (acc.length + 1) sel
            (by simp [hsel]) hne hq
          simpa using h
    · simp only [decodeGo]
      split
      · exact ih _ _ r sel hmem hact hsel hne hq
      · split
        · exact ih _ _ r sel hmem hact hsel hne hq
        · split
          · exact ih _ _ r sel hmem hact hsel hne hq
          · split
            · exact ih _ _ r sel hmem hact hsel hne hq
            · exact ih _ _ r sel hmem hact hsel hne hq

/-- The batched notice contains one entry per warning ball: it is some
list as soon as one ball warns, the entry of that ball is in it, and so
is the entry of every other warning ball. -/
theorem decodeNotice_spec (steps : List Ball) (b : Ball)
    (hb : b ∈ steps) (hw : b.isWarning = true) :
    ∃ ns, decodeNotice steps = some ns ∧ noticeEntry b ∈ ns ∧
      ∀ b' ∈ steps, b'.isWarning = true → noticeEntry b' ∈ ns := by
  have hmem : b ∈ steps.filter (·.isWarning) := List.mem_filter.mpr ⟨hb, hw⟩
  have hne : (steps.filter (·.isWarning)).isEmpty = false := by
    rcases hfe : steps.filter (·.isWarning) with _ | ⟨x, xs⟩
    · rw [hfe] at hmem; simp at hmem
    · rw [hfe]; rfl
  refine ⟨(steps.filter (·.isWarning)).map noticeEntry, ?_, ?_, ?_⟩
  · simp [decodeNotice, hne]
  · exact List.mem_map_of_mem _ hmem
  · intro b' hb' hw'
    exact List.mem_map_of_mem _ (List.mem_filter.mpr ⟨hb', hw'⟩)

/-- Renumbering preserves the number of balls. -/
theorem renumber_length : ∀ (l : List Ball) (n : ℕ),
    (renumber n l).length = l.length := by
  intro l
  induction l with
  | nil => intro n; rfl
  | cons b bs ih => intro n; simp [renumber, ih]

/-- After renumbering from n the sequence numbers are n, n+1, ... . -/
theorem renumber_map_seq : ∀ (l : List Ball) (n : ℕ),
    (renumber n l).map (·.seq) = List.range' n l.length := by
  intro l
  induction l with
  | nil => intro n; rfl
  | cons b bs ih =>
    intro n
    simp [renumber, List.range'_succ, updateSeq, ih]

/-- After renumbering, a ball holding sequence number 1 has delay 0. -/
theorem renumber_seq_one : ∀ (l : List Ball) (n : ℕ) (b : Ball),
    b ∈ renumber n l → b.seq = 1 → b.config.delay_ms = 0 := by
  intro l
  induction l with
  | nil => intro n b h; simp [renumber] at h
  | cons hd tl ih =>
    intro n b h hseq
    simp only [renumber, List.mem_cons] at h
    rcases h with h | h
    · subst h
      simp only [updateSeq] at hseq ⊢
      simp [hseq]
    · exact ih (n + 1) b h hseq

/-- Every record the wait-emitting branch of doSave produces is a Wait
with optional cleared. -/
theorem mem_ballWait {b : Ball} {r : ActionRecord} (h : r ∈ ballWait b) :
    r.action = "WAIT" ∧ r.optional = false := by
  unfold ballWait at h
  split at h
  · simp at h; subst h; exact ⟨rfl, rfl⟩
  · simp at h

/-- Every action record doSave emits for a ball has optional cleared. -/
theorem mem_ballRecord {b : Ball} {idx : ℕ} {r : ActionRecord}
    (h : r ∈ ballRecord b idx) : r.optional = false := by
  unfold ballRecord at h
  split at h
  · simp at h; subst h; rfl
  · split at h
    · simp at h; subst h; rfl
    · split at h
      · simp at h; subst h; rfl
      · simp at h

/-- Every record built by the doSave loop has optional cleared. -/
theorem optional_false_of_mem_bwGo :
    ∀ (idx : ℕ) (steps : List Ball) (r : ActionRecord),
      r ∈ bwGo idx steps → r.optional = false := by
  intro idx steps
  induction steps generalizing idx with
  | nil => intro r h; simp [bwGo] at h
  | cons b bs ih =>
    intro r h
    simp only [bwGo, List.mem_append] at h
    rcases h with (h | h) | h
    · exact (mem_ballWait h).2
    · exact mem_ballRecord h
    · exact ih (idx + 1) r h

/-- One step of the doSave loop followed by the observation fold: a ball
of a transcodable type with a known key and non-negative delay
contributes exactly one observation entry carrying its delay. -/
theorem obsGo_ball (b : Ball) (j : ℕ) (bs : List Ball)
    (hty : b.type = "CLICK" ∨ b.type = "INPUT" ∨ b.type = "READ")
    (htk : b.config.targetKey ≠ "") (hd : 0 ≤ b.config.delay_ms) :
    obsGo 0 (bwGo j (b :: bs)) =
      (ballAction b.type, b.config.targetKey, ballValue b, b.config.delay_ms)
        :: obsGo 0 (bwGo (j + 1) bs) := by
  simp only [bwGo]
  by_cases hpos : 0 < b.config.delay_ms
  · have hw : ballWait b =
        [{ action := "WAIT", target := "", optional := false
           value := .num (b.config.delay_ms / 1000) }] := by
      simp [ballWait, hpos]
    rw [hw]
    rcases hty with hty | hty | hty <;>
      simp [ballRecord, hty, htk, obsGo, jsToNum, ballAction, ballValue,
        qdiv_mul_1000]
  · have h0 : b.config.delay_ms = 0 := le_antisymm (not_lt.mp hpos) hd
    have hw : ballWait b = [] := by simp [ballWait, hpos]
    rw [hw]
    rcases hty with hty | hty | hty <;>
      simp [ballRecord, hty, htk, obsGo, ballAction, ballValue, h0]

/-- Case analysis of a well-formed round-trip record. -/
theorem wfRecord_cases {r : ActionRecord} (h : wfRecord r = true) :
    (r.action = "WAIT" ∧ ∃ q, r.value = .num q ∧ 0 ≤ q) ∨
    (r.action = "CLICK" ∧ r.target ≠ "" ∧ r.value = .null) ∨
    (r.action = "FILL_INPUT" ∧ r.target ≠ "") ∨
    (r.action = "STREAM_WAIT" ∧ r.target ≠ "" ∧ r.value = .null) := by
  unfold wfRecord at h
  split at h
  · rename_i hW
    refine Or.inl ⟨hW, ?_⟩
    rcases hv : r.value with _ | q | s <;> rw [hv] at h <;> simp at h
    exact ⟨q, rfl, h⟩
  · split at h
    · rename_i hW hCS
      rcases hCS with hC | hS
      · exact Or.inr (Or.inl ⟨hC, by simpa using h⟩)
      · exact Or.inr (Or.inr (Or.inr ⟨hS, by simpa using h⟩))
    · split at h
      · rename_i hF
        exact Or.inr (Or.inr (Or.inl ⟨hF, by simpa using h⟩))
      · simp at h

/-- The round-trip induction: decoding a well-formed list with a
non-negative pending delay and re-encoding it reproduces its
observation, with FillInput values nulled. -/
theorem c1_main (sels : String → Option String) (page : Page) :
    ∀ (L : List ActionRecord) (pending : ℚ) (j n : ℕ),
      (∀ r ∈ L, wfRecord r = true) → 0 ≤ pending →
      obsGo 0 (bwGo j (decodeTail sels page L pending n)) =
        (obsGo pending L).map fillNull := by
  intro L
  induction L with
  | nil => intro pending j n _ _; simp [decodeTail, bwGo, obsGo]
  | cons r rest ih =>
    intro pending j n hwf hp
    have hwfr : wfRecord r = true := hwf r (by simp)
    have hwfrest : ∀ x ∈ rest, wfRecord x = true := fun x hx => hwf x (by simp [hx])
    rcases wfRecord_cases hwfr with ⟨hW, q, hq, hqnn⟩ | ⟨hC, ht, hv⟩ |
      ⟨hF, ht⟩ | ⟨hS, ht, hv⟩
    · rw [show decodeTail sels page (r :: rest) pending n =
            decodeTail sels page rest (pending + jsToNum r.value * 1000) n from by
          simp [decodeTail, hW],
        show obsGo pending (r :: rest) =
            obsGo (pending + jsToNum r.value * 1000) rest from by
          simp [obsGo, hW]]
      refine ih _ j n hwfrest ?_
      rw [hq]
      simp only [jsToNum]
      have hq1000 : (0 : ℚ) ≤ q * 1000 := mul_nonneg hqnn (by norm_num)
      linarith
    · rw [show decodeTail sels page (r :: rest) pending n =
            newBall "CLICK"
              { delay_ms := some pending, random_radius := some 10
                selector := some ((sels r.target).getD "")
                targetKey := some r.target } page (n + 1)
              :: decodeTail sels page rest 0 (n + 1) from by
          simp [decodeTail, hC]]
      rw [obsGo_ball _ j _ (Or.inl (newBall_type _ _ _ _))
        (by simp [newBall_config, mkBallConfig, ht])
        (by simpa [newBall_config, mkBallConfig] using hp)]
      rw [ih _ (j + 1) (n + 1) hwfrest le_rfl]
      rw [show obsGo pending (r :: rest) =
            (r.action, r.target, r.value, pending) :: obsGo 0 rest from by
          simp [obsGo, hC]]
      simp [newBall_type, newBall_config, mkBallConfig, ballAction, ballValue,
        hC, hv, fillNull]
    · rw [show decodeTail sels page (r :: rest) pending n =
            newBall "INPUT"
              { delay_ms := some pending, text := some ""
                selector := some ((sels r.target).getD "")
                targetKey := some r.target } page (n + 1)
              :: decodeTail sels page rest 0 (n + 1) from by
          simp [decodeTail, hF]]
      rw [obsGo_ball _ j _ (Or.inr (Or.inl (newBall_type _ _ _ _)))
        (by simp [newBall_config, mkBallConfig, ht])
        (by simpa [newBall_config, mkBallConfig] using hp)]
      rw [ih _ (j + 1) (n + 1) hwfrest le_rfl]
      rw [show obsGo pending (r :: rest) =
            (r.action, r.target, r.value, pending) :: obsGo 0 rest from by
          simp [obsGo, hF]]
      simp [newBall_type, newBall_config, mkBallConfig, ballAction, ballValue,
        hF, fillNull]
    · rw [show decodeTail sels page (r :: rest) pending n =
            newBall "READ"
              { delay_ms := some pending
                selector := some ((sels r.target).getD "")
                targetKey := some r.target } page (n + 1)
              :: decodeTail sels page rest 0 (n + 1) from by
          simp [decodeTail, hS]]
      rw [obsGo_ball _ j _ (Or.inr (Or.inr (newBall_type _ _ _ _)))
        (by simp [newBall_config, mkBallConfig, ht])
        (by simpa [newBall_config, mkBallConfig] using hp)]
      rw [ih _ (j + 1) (n + 1) hwfrest le_rfl]
      rw [show obsGo pending (r :: rest) =
            (r.action, r.target, r.value, pending) :: obsGo 0 rest from by
          simp [obsGo, hS]]
      simp [newBall_type, newBall_config, mkBallConfig, ballAction, ballValue,
        hS, hv, fillNull]

/-- The decoding loop over a concatenation: process the first part, then
the second with the leftover pending delay. -/
theorem decodeGo_append (sels : String → Option String) (page : Page) :
    ∀ (L W : List ActionRecord) (p : ℚ) (acc : List Ball),
      decodeGo sels page (L ++ W) p acc =
        decodeGo sels page W (pendOut L p) (decodeGo sels page L p acc) := by
  intro L
  induction L with
  | nil => intro W p acc; simp [decodeGo, pendOut]
  | cons r rest ih =>
    intro W p acc
    simp only [List.cons_append, decodeGo, pendOut]
    split
    · exact ih W _ _
    · split
      · exact ih W _ _
      · split
        · exact ih W _ _
        · split
          · exact ih W _ _
          · exact ih W _ _

/-- A run of Wait records decodes to no ball at all: the accumulated
delay is silently dropped. -/
theorem decodeGo_allWait (sels : String → Option String) (page : Page) :
    ∀ (W : List ActionRecord) (p : ℚ) (acc : List Ball),
      (∀ r ∈ W, r.action = "WAIT") → decodeGo sels page W p acc = acc := by
  intro W
  induction W with
  | nil => intro p acc _; rfl
  | cons r rest ih =>
    intro p acc hW
    have hr : r.action = "WAIT" := hW r (by simp)
    simp only [decodeGo, if_pos hr]
    exact ih _ _ (fun x hx => hW x (by simp [hx]))

/-- Every ball the decoding loop creates has a transcodable type. -/
theorem decodeTail_types (sels : String → Option String) (page : Page) :
    ∀ (L : List ActionRecord) (p : ℚ) (n : ℕ) (b : Ball),
      b ∈ decodeTail sels page L p n →
      b.type = "CLICK" ∨ b.type = "INPUT" ∨ b.type = "READ" := by
  intro L
  induction L with
  | nil => intro p n b hb; simp [decodeTail] at hb
  | cons r rest ih =>
    intro p n b hb
    simp only [decodeTail] at hb
    split at hb
    · exact ih _ _ _ hb
    · split at hb
      · rcases List.mem_cons.mp hb with h | h
        · subst h; exact Or.inl rfl
        · exact ih _ _ _ h
      · split at hb
        · rcases List.mem_cons.mp hb with h | h
          · subst h; exact Or.inr (Or.inl rfl)
          · exact ih _ _ _ h
        · split at hb
          · rcases List.mem_cons.mp hb with h | h
            · subst h; exact Or.inr (Or.inr rfl)
            · exact ih _ _ _ h
          · exact ih _ _ _ hb

/-- For a transcodable ball the emitted record is a singleton with the
common shape. -/
theorem ballRecord_eq (b : Ball) (j : ℕ)
    (h : b.type = "CLICK" ∨ b.type = "INPUT" ∨ b.type = "READ") :
    ballRecord b j =
      [{ action := ballAction b.type
         target := if b.config.targetKey ≠ "" then b.config.targetKey
                   else fallbackTarget b.type j
         optional := false
         value := ballValue b }] := by
  rcases h with h | h | h <;>
    simp [ballRecord, ballAction, ballValue, fallbackTarget, h]

/-- The action tag of a transcodable ball is never Wait. -/
theorem ballAction_ne_wait (ty : String)
    (h : ty = "CLICK" ∨ ty = "INPUT" ∨ ty = "READ") :
    ballAction ty ≠ "WAIT" := by
  rcases h with h | h | h <;> simp [ballAction, h]

/-- The doSave loop never ends in a Wait record when all balls have a
transcodable type: a Wait is only ever emitted immediately before its
ball's own record. -/
theorem bwGo_last_ne_wait :
    ∀ (bs : List Ball) (j : ℕ),
      (∀ b ∈ bs, b.type = "CLICK" ∨ b.type = "INPUT" ∨ b.type = "READ") →
      ∀ r, (bwGo j bs).getLast? = some r → r.action ≠ "WAIT" := by
  intro bs
  induction bs with
  | nil => intro j _ r hr; simp [bwGo] at hr
  | cons b tl ih =>
    intro j hty r hr
    have hbty := hty b (by simp)
    simp only [bwGo] at hr
    rcases htl : bwGo (j + 1) tl with _ | ⟨x, xs⟩
    · rw [htl, List.append_nil, ballRecord_eq b j hbty,
        List.getLast?_concat] at hr
      injection hr with hr
      subst hr
      exact ballAction_ne_wait b.type hbty
    · rw [htl] at hr
      rcases hz : (x :: xs).getLast? with _ | z
      · exact absurd (List.getLast?_eq_none_iff.mp hz) (by simp)
      · rw [List.getLast?_append, List.getLast?_append, hz] at hr
        simp only [some_or] at hr
        injection hr with hr
        subst hr
        exact ih (j + 1) (fun b' hb' => hty b' (by simp [hb'])) z (by rw [htl, hz])

/-! The claims. -/

/-- Claim C1, counterexample: the round trip is not observationally
faithful as claimed.  Decoding the single record FillInput(target
empty, value the string hello) and re-encoding yields FillInput(target
input_box, value null): the fill text is dropped (decode stores empty
text and encode emits text-or-null) and the empty target is replaced by
a synthesized placeholder, so the observation of the re-encoded list
differs from the observation of the original. -/
theorem c1_counterexample :
    obs cfg1.workflow = [("FILL_INPUT", "", JValue.str "hello", 0)] ∧
    obs (doSaveWorkflow (loadFromConfig cfg1 page0)) =
      [("FILL_INPUT", "input_box", JValue.null, 0)] ∧
    obs (doSaveWorkflow (loadFromConfig cfg1 page0)) ≠ obs cfg1.workflow := by
  have h1 : obs cfg1.workflow = [("FILL_INPUT", "", JValue.str "hello", 0)] := by
    simp [obs, obsGo, cfg1]
  have h2 : obs (doSaveWorkflow (loadFromConfig cfg1 page0)) =
      [("FILL_INPUT", "input_box", JValue.null, 0)] := by
    simp [obs, obsGo, cfg1, page0, doSaveWorkflow, loadFromConfig, decodeGo,
      addBall, newBall, mkBallConfig, findElement, bwGo, ballWait, ballRecord]
  refine ⟨h1, h2, ?_⟩
  rw [h1, h2]
  simp

/-- Claim C1, amended: for every action list built from Wait, Click,
FillInput and StreamWait records in which every Wait carries a
non-negative numeric value in seconds, every Click and StreamWait
carries a null value, and every record's target is non-empty,
encode(decode(L)) — loadFromConfig followed by the workflow-building
part of doSave — is observationally equivalent to L with each FillInput
record's value replaced by null: the same actions in the same order with
the same targets, no spurious Wait records, and for each non-Wait action
the total preceding delay preserved exactly in milliseconds.  (FillInput
values are not preserved: decode stores an empty text and encode emits
text-or-null; an empty target would be replaced by a synthesized
placeholder.) -/
theorem c1_amended (cfg : Config) (page : Page)
    (hwf : ∀ r ∈ cfg.workflow, wfRecord r = true) :
    obs (doSaveWorkflow (loadFromConfig cfg page)) =
      (obs cfg.workflow).map fillNull := by
  unfold obs doSaveWorkflow loadFromConfig
  rw [decodeGo_eq_tail]
  simp only [List.nil_append, List.length_nil]
  exact c1_main cfg.selectors page cfg.workflow 0 0 0 hwf le_rfl

/-- Witness for the amended claim C1 at the concrete workflow holding a
two-second wait folded into a click. -/
theorem c1_amended_witness :
    obs (doSaveWorkflow (loadFromConfig cfgW1 page0)) =
      (obs cfgW1.workflow).map fillNull :=
  c1_amended cfgW1 page0 (by
    intro r hr
    simp only [cfgW1, List.mem_cons, List.mem_singleton] at hr
    rcases hr with h | h | h
    · subst h; decide
    · subst h; decide
    · simp at h)

/-- Claim C2, counterexample: decoding a workflow that starts with a
five-second Wait followed by a Click produces a single entity with
sequence 1 whose delay_ms is 5000, not 0 — the Ball constructor's
zero-delay default for sequence 1 is overridden by the config spread, so
the claimed invariant fails after an add performed during decode. -/
theorem c2_counterexample :
    loadFromConfig cfg2 page0 = [ball2] ∧
    ball2.seq = 1 ∧ ball2.config.delay_ms = 5000 ∧
    ball2.config.delay_ms ≠ 0 := by
  have h : loadFromConfig cfg2 page0 = [ball2] := by
    simp [cfg2, page0, loadFromConfig, decodeGo, addBall, newBall, mkBallConfig,
      jsToNum, findElement, ball2]
    norm_num
  exact ⟨h, rfl, rfl, by norm_num [ball2]⟩

/-- Claim C2, amended: after any addBall the sequence numbers are again
exactly 1..N (and likewise after any removeBall, unconditionally for an
in-range removal); after any in-range removeBall the renumbering forces
delay_ms to 0 on the entity that becomes sequence 1; and addBall gives
the first entity delay 0 whenever its config does not explicitly carry a
delay.  What fails in the original claim is only the delay part for adds
whose config carries an explicit delay, as the adds performed during
decode do. -/
theorem c2_amended (steps : List Ball) (ty : String) (cfg : ConfigArg)
    (page : Page) (i : ℕ) (hinv : SeqInv steps) :
    SeqInv (addBall steps ty cfg page) ∧
    SeqInv (removeBall steps i) ∧
    (i < steps.length →
      ∀ b ∈ removeBall steps i, b.seq = 1 → b.config.delay_ms = 0) ∧
    (steps = [] → cfg.delay_ms = none →
      ∀ b ∈ addBall steps ty cfg page, b.config.delay_ms = 0) := by
  refine ⟨?_, ?_, ?_, ?_⟩
  · unfold SeqInv at hinv ⊢
    simp only [addBall, List.map_append, List.length_append, List.map_cons,
      List.map_nil, List.length_cons, List.length_nil]
    rw [hinv, newBall_seq, List.range'_concat]
    simp [Nat.add_comm]
  · unfold removeBall
    split
    · unfold SeqInv
      rw [renumber_map_seq, renumber_length]
    · exact hinv
  · intro hlt b hb hseq
    unfold removeBall at hb
    rw [if_pos hlt] at hb
    exact renumber_seq_one _ 1 b hb hseq
  · intro hempty hnone b hb
    subst hempty
    simp only [addBall, List.nil_append, List.mem_singleton] at hb
    subst hb
    simp [newBall, mkBallConfig, hnone]

/-- Witness for the amended claim C2 at the two-ball collection steps7. -/
theorem c2_amended_witness :
    SeqInv (addBall steps7 "CLICK" {} page0) ∧
    SeqInv (removeBall steps7 0) :=
  ⟨(c2_amended steps7 "CLICK" {} page0 0 (by
      unfold SeqInv
      simp [steps7, addBall, newBall, List.range'])).1,
   (c2_amended steps7 "CLICK" {} page0 0 (by
      unfold SeqInv
      simp [steps7, addBall, newBall, List.range'])).2.1⟩

/-- Claim C3, counterexample: on a 100 by 100 viewport, moving a ball to
(1000, 1000) stores x = 100 - 28 = 72, which is beyond
viewportWidth - markerSize = 100 - 32 = 68: the code clamps with the
constant 28 while the marker's fixed on-screen size in the stylesheet is
32 pixels. -/
theorem c3_counterexample :
    (Ball.move page3 ball3 1000 1000).x = 72 ∧
    ¬ ((Ball.move page3 ball3 1000 1000).x ≤ page3.innerWidth - markerSize) := by
  constructor
  · show max 0 (min (page3.innerWidth - 28) 1000) = 72
    norm_num [page3]
  · show ¬ (max 0 (min (page3.innerWidth - 28) 1000) ≤ page3.innerWidth - markerSize)
    norm_num [page3, markerSize]

/-- Claim C3, amended: for every viewport at least 28 wide and 28 tall,
move stores a position clamped to the box from (0, 0) to
(viewportWidth - 28, viewportHeight - 28): never negative and never
beyond viewport minus 28 — the clamping constant the code uses, which is
smaller than the 32-pixel rendered marker size. -/
theorem c3_amended (page : Page) (b : Ball) (x y : ℚ)
    (hw : 28 ≤ page.innerWidth) (hh : 28 ≤ page.innerHeight) :
    0 ≤ (Ball.move page b x y).x ∧
    (Ball.move page b x y).x ≤ page.innerWidth - 28 ∧
    0 ≤ (Ball.move page b x y).y ∧
    (Ball.move page b x y).y ≤ page.innerHeight - 28 := by
  simp only [Ball.move]
  refine ⟨le_max_left _ _, ?_, le_max_left _ _, ?_⟩ <;>
    exact max_le (by linarith) (min_le_left _ _)

/-- Witness for the amended claim C3 on the 100 by 100 page. -/
theorem c3_amended_witness :
    0 ≤ (Ball.move page3 ball3 1000 1000).x ∧
    (Ball.move page3 ball3 1000 1000).x ≤ page3.innerWidth - 28 ∧
    0 ≤ (Ball.move page3 ball3 1000 1000).y ∧
    (Ball.move page3 ball3 1000 1000).y ≤ page3.innerHeight - 28 :=
  c3_amended page3 ball3 1000 1000 (by norm_num [page3]) (by norm_num [page3])

/-- Claim C4, evaluation at the failing input: starting a picker session
while one is active appends a second capture overlay without removing
the first — after two startPicker calls two overlays are attached, and
the subsequent endPicker removes only the one the module variable still
references, leaving the first overlay in the document.  This contradicts
the claimed mutual exclusion (and the stated requirement that the
capture overlay never permanently block the page), so it is a code bug:
startPicker has no teardown of a previous session. -/
theorem c4_picker_overlay_leak :
    (startPicker pickerInit).overlays = 1 ∧
    (startPicker (startPicker pickerInit)).overlays = 2 ∧
    ¬ ((startPicker (startPicker pickerInit)).overlays ≤ 1) ∧
    (endPicker (startPicker (startPicker pickerInit))).overlays = 1 := by
  exact ⟨rfl, rfl, by decide, rfl⟩

/-- Claim C5: findElement returns none on the empty reference; on a
reference whose query raises a syntax error it returns none instead of
propagating the exception; and on a non-empty reference matching a list
of live elements (in particular more than one) it returns the last
match in document order. -/
theorem c5_locator (page : Page) (sel : String) :
    findElement page "" = none ∧
    (page.query sel = none → findElement page sel = none) ∧
    (∀ l, sel ≠ "" → page.query sel = some l → 1 < l.length →
      findElement page sel = l.getLast?) := by
  refine ⟨by simp [findElement], ?_, ?_⟩
  · intro h
    by_cases hs : sel = ""
    · simp [findElement, hs]
    · simp [findElement, hs, h]
  · intro l hs hq _
    simp [findElement, hs, hq]

/-- Witness for claim C5 on a page with a duplicated match and a
syntactically invalid reference. -/
theorem c5_locator_witness :
    findElement page5 "" = none ∧
    findElement page5 "bad" = none ∧
    findElement page5 "dup" = some elemTwo := by
  refine ⟨(c5_locator page5 "dup").1,
    (c5_locator page5 "bad").2.1 (by simp [page5]), ?_⟩
  have h := (c5_locator page5 "dup").2.2 [elemOne, elemTwo]
    (by simp) (by simp [page5]) (by norm_num)
  simpa using h

/-- Claim C6, counterexample: the root element is excluded from the
id-based rule.  For the body element carrying the unique non-generated
id main, generateSelector returns the fixed root marker body, not the
ID-based reference. -/
theorem c6_counterexample :
    generateSelector pageBody elemBody = "body" ∧
    generateSelector pageBody elemBody ≠ "#" ++ cssEscape elemBody.id ∧
    elemBody.id ≠ "" ∧
    ¬ jsStartsWith elemBody.id "wfe-" ∧
    queryCount pageBody ("#" ++ cssEscape elemBody.id) = 1 := by
  refine ⟨?_, ?_, by simp [elemBody], by decide, ?_⟩
  · simp [generateSelector, elemBody]
  · simp [generateSelector, elemBody, cssEscape]
  · simp [queryCount, pageBody, cssEscape, elemBody]

/-- Claim C6, amended: for every non-root element with a non-empty,
non-generated id whose id selector matches exactly that element on the
current page, generateSelector returns the ID-based reference and
findElement applied to it yields exactly that element. -/
theorem c6_amended (page : Page) (e : Elem)
    (hb : e.isBody = false) (hid : e.id ≠ "")
    (hgen : ¬ jsStartsWith e.id "wfe-")
    (huniq : page.query ("#" ++ cssEscape e.id) = some [e]) :
    generateSelector page e = "#" ++ cssEscape e.id ∧
    findElement page ("#" ++ cssEscape e.id) = some e := by
  have hcount : queryCount page ("#" ++ cssEscape e.id) = 1 := by
    simp [queryCount, huniq]
  constructor
  · simp [generateSelector, hb, hid, hgen, hcount]
  · simp [findElement, hash_append_ne_empty (cssEscape e.id), huniq]

/-- Witness for the amended claim C6 on the button with the unique id
send. -/
theorem c6_amended_witness :
    generateSelector page6 elem6 = "#send" ∧
    findElement page6 "#send" = some elem6 := by
  have h := c6_amended page6 elem6 rfl (by simp [elem6]) (by decide)
    (by simp [page6, cssEscape, elem6])
  simpa [cssEscape, elem6] using h

/-- Claim C7, counterexample: placeholder targets are not unique within
the emitted list.  Two Input balls without a known key both receive the
fixed fallback target input_box, so two emitted records without known
keys share the same placeholder. -/
theorem c7_counterexample :
    steps7.map (fun b => b.config.targetKey) = ["", ""] ∧
    ((doSaveWorkflow steps7).filter (fun r => r.action != "WAIT")).map (·.target)
      = ["input_box", "input_box"] := by
  constructor
  · simp [steps7, addBall, newBall, mkBallConfig, page0]
  · simp [steps7, addBall, newBall, mkBallConfig, page0, doSaveWorkflow, bwGo,
      ballWait, ballRecord]

/-- Claim C7, amended: for every step collection of transcodable kinds,
the emitted non-Wait records carry, in order, the entity's correlated
symbolic key when one is known (non-empty), and otherwise a kind-fixed
fallback: custom_click_ followed by the entity's array index for Click
(distinct for distinct entities because the index is embedded), but the
fixed constants input_box and result_container for Input and Read — the
latter two are shared by all key-less entities of that kind, not unique
within the emitted list. -/
theorem c7_amended (steps : List Ball)
    (h : ∀ b ∈ steps, b.type = "CLICK" ∨ b.type = "INPUT" ∨ b.type = "READ") :
    ((doSaveWorkflow steps).filter (fun r => r.action != "WAIT")).map (·.target)
      = specTargets 0 steps := by
  have main : ∀ (idx : ℕ) (bs : List Ball),
      (∀ b ∈ bs, b.type = "CLICK" ∨ b.type = "INPUT" ∨ b.type = "READ") →
      ((bwGo idx bs).filter (fun r => r.action != "WAIT")).map (·.target)
        = specTargets idx bs := by
    intro idx bs
    induction bs generalizing idx with
    | nil => intro _; simp [bwGo, specTargets]
    | cons b tl ih =>
      intro hb
      have hbty := hb b (by simp)
      have htl : ∀ x ∈ tl, x.type = "CLICK" ∨ x.type = "INPUT" ∨ x.type = "READ" :=
        fun x hx => hb x (by simp [hx])
      simp only [bwGo, List.filter_append, List.map_append]
      have hwait : (ballWait b).filter (fun r => r.action != "WAIT") = [] := by
        unfold ballWait; split <;> simp
      rw [hwait]
      rcases hbty with hty | hty | hty <;>
        simp [ballRecord, hty, specTargets, fallbackTarget, ih (idx + 1) htl]
  exact main 0 steps h

/-- Witness for the amended claim C7 at the two key-less Input balls. -/
theorem c7_amended_witness :
    ((doSaveWorkflow steps7).filter (fun r => r.action != "WAIT")).map (·.target)
      = specTargets 0 steps7 :=
  c7_amended steps7 (by
    intro b hb
    simp [steps7, addBall, newBall, mkBallConfig, page0] at hb
    rcases hb with h | h <;> simp [h])

/-- Claim C8: decoding a workflow containing a transcodable record whose
target maps through the selector map to a non-empty selector matching
zero live elements produces an entity in the warning state recording the
missing reference, and the single batched notice computed after the full
decode lists the offending symbolic key and reference string of that
entity — and of every other warning entity. -/
theorem c8_warning_batch (cfg : Config) (page : Page) (r : ActionRecord)
    (sel : String) (hr : r ∈ cfg.workflow)
    (hact : r.action = "CLICK" ∨ r.action = "FILL_INPUT" ∨
      r.action = "STREAM_WAIT")
    (hsel : cfg.selectors r.target = some sel) (hne : sel ≠ "")
    (hq : page.query sel = some []) :
    ∃ b ∈ loadFromConfig cfg page,
      b.isWarning = true ∧ b.config.selector = sel ∧
      b.config.targetKey = r.target ∧
      b.warningMessage = "元素不存在: " ++ sel ∧
      ∃ ns, loadNotice cfg page = some ns ∧ noticeEntry b ∈ ns ∧
        ∀ b' ∈ loadFromConfig cfg page, b'.isWarning = true →
          noticeEntry b' ∈ ns := by
  obtain ⟨b, hb, hw, hs, ht, hm⟩ :=
    decode_warning_exists cfg.selectors page cfg.workflow 0 [] r sel
      hr hact hsel hne hq
  obtain ⟨ns, h1, h2, h3⟩ := decodeNotice_spec (loadFromConfig cfg page) b hb hw
  exact ⟨b, hb, hw, hs, ht, hm, ns, h1, h2, h3⟩

/-- Witness for claim C8: the missing selector of cfg8 produces a
batched notice. -/
theorem c8_warning_batch_witness :
    (loadNotice cfg8 page0).isSome = true := by
  obtain ⟨b, hb, hw, hs, ht, hm, ns, h1, h2, h3⟩ :=
    c8_warning_batch cfg8 page0 ⟨"CLICK", "k", false, .null⟩ "#gone"
      (by simp [cfg8]) (Or.inl rfl) (by simp [cfg8]) (by simp) (by simp [page0])
  rw [h1]
  rfl

/-- Claim C9, counterexample: the optional flag is not propagated.
Decoding a workflow holding one Click record with optional set and
re-encoding yields the same Click record with optional cleared: doSave
writes optional false on every record it emits. -/
theorem c9_counterexample :
    cfg9.workflow.map (·.optional) = [true] ∧
    (doSaveWorkflow (loadFromConfig cfg9 page0)).map
      (fun r => (r.action, r.target, r.optional)) = [("CLICK", "a", false)] := by
  refine ⟨rfl, ?_⟩
  simp [cfg9, page0, doSaveWorkflow, loadFromConfig, decodeGo, addBall, newBall,
    mkBallConfig, findElement, bwGo, ballWait, ballRecord]

/-- Claim C9, amended: the optional flag is dropped, not propagated:
decode never reads it and every record the workflow-building part of
doSave emits carries optional = false, so a record only keeps its
original optional value when that value was false. -/
theorem c9_amended (steps : List Ball) (r : ActionRecord)
    (hr : r ∈ doSaveWorkflow steps) : r.optional = false :=
  optional_false_of_mem_bwGo 0 steps r hr

/-- Witness for the amended claim C9 at the one-ball collection. -/
theorem c9_amended_witness :
    (⟨"CLICK", "k", false, .null⟩ : ActionRecord).optional = false :=
  c9_amended [ball9] ⟨"CLICK", "k", false, .null⟩
    (by simp [doSaveWorkflow, bwGo, ballWait, ballRecord, ball9])

/-- Claim C10: trailing Wait records are lost.  For every workflow of
the form L followed by a run of Wait records, decoding yields exactly
the balls of decoding L alone — no entity is created for the trailing
Wait records and their accumulated delay is discarded — hence the
re-encoded workflow is that of L alone, and the emitted workflow never
ends in a Wait record. -/
theorem c10_trailing_waits (cfg : Config) (page : Page)
    (L W : List ActionRecord)
    (hsplit : cfg.workflow = L ++ W) (hW : ∀ r ∈ W, r.action = "WAIT") :
    loadFromConfig cfg page = loadFromConfig ⟨cfg.selectors, L⟩ page ∧
    doSaveWorkflow (loadFromConfig cfg page) =
      doSaveWorkflow (loadFromConfig ⟨cfg.selectors, L⟩ page) ∧
    ∀ r, (doSaveWorkflow (loadFromConfig cfg page)).getLast? = some r →
      r.action ≠ "WAIT" := by
  have h1 : loadFromConfig cfg page = loadFromConfig ⟨cfg.selectors, L⟩ page := by
    show decodeGo cfg.selectors page cfg.workflow 0 [] =
      decodeGo cfg.selectors page L 0 []
    rw [hsplit, decodeGo_append]
    exact decodeGo_allWait cfg.selectors page W _ _ hW
  have htypes : ∀ b ∈ loadFromConfig cfg page,
      b.type = "CLICK" ∨ b.type = "INPUT" ∨ b.type = "READ" := by
    intro b hb
    have hb2 : b ∈ decodeTail cfg.selectors page cfg.workflow 0 0 := by
      have heq := decodeGo_eq_tail cfg.selectors page cfg.workflow 0 []
      simp only [List.nil_append, List.length_nil] at heq
      rw [show loadFromConfig cfg page =
        decodeGo cfg.selectors page cfg.workflow 0 [] from rfl, heq] at hb
      exact hb
    exact decodeTail_types cfg.selectors page cfg.workflow 0 0 b hb2
  exact ⟨h1, by rw [h1], fun r hr =>
    bwGo_last_ne_wait (loadFromConfig cfg page) 0 htypes r hr⟩

/-- Witness for claim C10 at the workflow ending in a trailing wait. -/
theorem c10_trailing_waits_witness :
    loadFromConfig cfg10 page0 =
      loadFromConfig ⟨cfg10.selectors, [⟨"CLICK", "a", false, .null⟩]⟩ page0 ∧
    doSaveWorkflow (loadFromConfig cfg10 page0) =
      doSaveWorkflow
        (loadFromConfig ⟨cfg10.selectors, [⟨"CLICK", "a", false, .null⟩]⟩ page0) :=
  ⟨(c10_trailing_waits cfg10 page0 [⟨"CLICK", "a", false, .null⟩]
      [⟨"WAIT", "", false, .num 5⟩] rfl
      (by intro r hr; simp at hr; subst hr; rfl)).1,
   (c10_trailing_waits cfg10 page0 [⟨"CLICK", "a", false, .null⟩]
      [⟨"WAIT", "", false, .num 5⟩] rfl
      (by intro r hr; simp at hr; subst hr; rfl)).2.1⟩

end WorkflowEditor
